import Mathlib

/-!
Shallow embedding of the Davis WeatherLink Live / AirLink → InfluxDB line
protocol converters (`src/unnamed/part_000` and `src/airlink.js`).

JavaScript numbers are modelled as exact rationals (`ℚ`), with `NaN` as an
explicit extra value (`JNum.nan`); `null`/`undefined` are modelled by
`Option`.  `Number.prototype.toFixed(d)` followed by the unary `+` of the
source is modelled exactly on ℚ: round to the nearest multiple of `10⁻ᵈ`,
ties toward `+∞` (the tie rule of `toFixed`).  All definitions are
executable and structurally recursive so that concrete runs evaluate by
`decide`/`rfl`.
-/

/-- A JavaScript number: either NaN or an exact rational. -/
inductive JNum where
  | nan : JNum
  | num : ℚ → JNum
deriving DecidableEq

/-- InfluxDB numeric kind of a schema field: `'int'` (suffix `i`) or `'float'`. -/
inductive NumericKind where
  | int : NumericKind
  | float : NumericKind
deriving DecidableEq

/-- Model of `(x).toFixed(d)` re-read with unary `+`: the value rounded to
`d` decimal places, ties toward `+∞` (ECMA `toFixed` picks the larger
candidate integer on a tie). -/
def toFixedNum (d : ℕ) (x : ℚ) : ℚ :=
  ((Rat.floor (x * 10 ^ d + 1 / 2) : ℤ) : ℚ) / 10 ^ d

/-- `CONFIG.rainCupSizeMm` of `part_000` (default rain collector size). -/
def rainCupSizeMm : ℚ := 0.2

/-- `const fahrenheitToCelsius = (f) => f != null ? +((f - 32) * 5 / 9).toFixed(1) : null`.
NaN input propagates (`NaN != null` is true and arithmetic on NaN gives NaN). -/
def fahrenheitToCelsius : Option JNum → Option JNum
  | none => none
  | some JNum.nan => some JNum.nan
  | some (JNum.num f) => some (JNum.num (toFixedNum 1 ((f - 32) * 5 / 9)))

/-- `const inHgToHPa = (inHg) => inHg != null ? +(inHg * 33.8639).toFixed(1) : null`. -/
def inHgToHPa : Option JNum → Option JNum
  | none => none
  | some JNum.nan => some JNum.nan
  | some (JNum.num x) => some (JNum.num (toFixedNum 1 (x * 33.8639)))

/-- `const inHgToHPaTrend = (inHg) => inHg != null ? +(inHg * 33.8639).toFixed(3) : null`. -/
def inHgToHPaTrend : Option JNum → Option JNum
  | none => none
  | some JNum.nan => some JNum.nan
  | some (JNum.num x) => some (JNum.num (toFixedNum 3 (x * 33.8639)))

/-- `const mphToMs = (mph) => mph != null ? +(mph * 0.44704).toFixed(2) : null`. -/
def mphToMs : Option JNum → Option JNum
  | none => none
  | some JNum.nan => some JNum.nan
  | some (JNum.num x) => some (JNum.num (toFixedNum 2 (x * 0.44704)))

/-- `const tipsToMm = (tips) => tips != null ? +(tips * CONFIG.rainCupSizeMm).toFixed(1) : null`. -/
def tipsToMm : Option JNum → Option JNum
  | none => none
  | some JNum.nan => some JNum.nan
  | some (JNum.num x) => some (JNum.num (toFixedNum 1 (x * rainCupSizeMm)))

/-- C6: every unit converter maps `null`/absent input to `null` output.  The
converters are total Lean functions over the embedded value space, so no
input can raise; null propagation is the stated equalities. -/
theorem converters_null_propagation :
    fahrenheitToCelsius none = none ∧
    inHgToHPa none = none ∧
    inHgToHPaTrend none = none ∧
    mphToMs none = none ∧
    tipsToMm none = none :=
  ⟨rfl, rfl, rfl, rfl, rfl⟩

/-- C7: exact rounded outputs of the converters at the spec's sample points:
`fahrenheitToCelsius 32 = 0`, `mphToMs 10 = 4.47`, `tipsToMm 1 = 0.2` with
the default cup size, `inHgToHPa 29.92 = 1013.2` (1 decimal) and
`inHgToHPaTrend 29.92 = 1013.208` (3 decimals). -/
theorem converters_rounding_values :
    fahrenheitToCelsius (some (JNum.num 32)) = some (JNum.num 0) ∧
    mphToMs (some (JNum.num 10)) = some (JNum.num 4.47) ∧
    tipsToMm (some (JNum.num 1)) = some (JNum.num 0.2) ∧
    inHgToHPa (some (JNum.num 29.92)) = some (JNum.num 1013.2) ∧
    inHgToHPaTrend (some (JNum.num 29.92)) = some (JNum.num 1013.208) := by
  refine ⟨?_, ?_, ?_, ?_, ?_⟩ <;>
    simp only [fahrenheitToCelsius, mphToMs, tipsToMm, inHgToHPa, inHgToHPaTrend,
      toFixedNum, rainCupSizeMm, Option.some.injEq, JNum.num.injEq] <;>
    norm_num [Rat.floor_def']

/-- JavaScript `a || b` on an optional string: `b` when `a` is
absent/`null` or the empty string (falsy), else the string itself.
Used for `config.source || fieldName` and `data.did || 'unknown'`. -/
def jsOrDefault (a : Option String) (b : String) : String :=
  match a with
  | none => b
  | some s => if s = "" then b else s

/-- One schema entry `{ type, source?, convert? }` of the field schema
tables.  `name` is the object key the entry is stored under. -/
structure FieldSpec where
  name : String
  type : NumericKind
  source : Option String
  convert : Option (Option JNum → Option JNum)

/-- Schema helper: a float field without converter (`{ type: 'float' }`). -/
def ff (n : String) : FieldSpec := ⟨n, NumericKind.float, none, none⟩

/-- Schema helper: a float field with a converter
(`{ type: 'float', convert: c }`). -/
def fc (n : String) (c : Option JNum → Option JNum) : FieldSpec :=
  ⟨n, NumericKind.float, none, some c⟩

/-- Schema helper: an int field without converter (`{ type: 'int' }`). -/
def fi (n : String) : FieldSpec := ⟨n, NumericKind.int, none, none⟩

/-- `OUTDOOR_SCHEMA` of `part_000`, in declaration order. -/
def OUTDOOR_SCHEMA : List FieldSpec :=
  [fc "temp" fahrenheitToCelsius,
   ff "hum",
   fc "dew_point" fahrenheitToCelsius,
   fc "wet_bulb" fahrenheitToCelsius,
   fc "heat_index" fahrenheitToCelsius,
   fc "wind_chill" fahrenheitToCelsius,
   fc "thw_index" fahrenheitToCelsius,
   fc "thsw_index" fahrenheitToCelsius,
   fc "wind_speed_last" mphToMs,
   fc "wind_speed_avg_last_1_min" mphToMs,
   fc "wind_speed_avg_last_2_min" mphToMs,
   fc "wind_speed_hi_last_2_min" mphToMs,
   fc "wind_speed_avg_last_10_min" mphToMs,
   fc "wind_speed_hi_last_10_min" mphToMs,
   fi "wind_dir_last",
   fi "wind_dir_scalar_avg_last_1_min",
   fi "wind_dir_scalar_avg_last_2_min",
   fi "wind_dir_at_hi_speed_last_2_min",
   fi "wind_dir_scalar_avg_last_10_min",
   fi "wind_dir_at_hi_speed_last_10_min",
   fc "rain_rate_last" tipsToMm,
   fc "rain_rate_hi" tipsToMm,
   fc "rainfall_last_15_min" tipsToMm,
   fc "rain_rate_hi_last_15_min" tipsToMm,
   fc "rainfall_last_60_min" tipsToMm,
   fc "rainfall_last_24_hr" tipsToMm,
   fc "rainfall_daily" tipsToMm,
   fc "rainfall_monthly" tipsToMm,
   fc "rainfall_year" tipsToMm,
   fc "rain_storm" tipsToMm,
   fc "rain_storm_last" tipsToMm,
   fi "solar_rad",
   ff "uv_index"]

/-- `INDOOR_SCHEMA` of `part_000`. -/
def INDOOR_SCHEMA : List FieldSpec :=
  [fc "temp_in" fahrenheitToCelsius,
   ff "hum_in",
   fc "dew_point_in" fahrenheitToCelsius,
   fc "heat_index_in" fahrenheitToCelsius]

/-- `BAROMETER_SCHEMA` of `part_000`. -/
def BAROMETER_SCHEMA : List FieldSpec :=
  [fc "bar_sea_level" inHgToHPa,
   fc "bar_absolute" inHgToHPa,
   fc "bar_trend" inHgToHPaTrend]

/-- `FIELD_SCHEMA` of `airlink.js`. -/
def FIELD_SCHEMA : List FieldSpec :=
  [fc "temp" fahrenheitToCelsius,
   ff "hum",
   fc "dew_point" fahrenheitToCelsius,
   fc "heat_index" fahrenheitToCelsius,
   fc "wet_bulb" fahrenheitToCelsius,
   ff "pm_1",
   ff "pm_2p5",
   ff "pm_2p5_last_1_hour",
   ff "pm_2p5_last_3_hours",
   ff "pm_2p5_last_24_hours",
   ff "pm_2p5_nowcast",
   ff "pm_10",
   ff "pm_10_last_1_hour",
   ff "pm_10_last_3_hours",
   ff "pm_10_last_24_hours",
   ff "pm_10_nowcast",
   fi "pm_1_last",
   fi "pm_2p5_last",
   fi "pm_10_last",
   fi "pct_pm_data_last_1_hour",
   fi "pct_pm_data_last_3_hours",
   fi "pct_pm_data_last_24_hours",
   fi "pct_pm_data_nowcast"]

/-- A resolved field ready for encoding: `fields[fieldName] = { value, type }`.
By construction of `buildFields` the value is never null and never NaN. -/
structure TypedField where
  name : String
  value : ℚ
  type : NumericKind
deriving DecidableEq

/-- The conversion step of `buildFields`: `config.convert ? config.convert(value) : value`. -/
def applyConvert (config : FieldSpec) (v : JNum) : Option JNum :=
  match config.convert with
  | some conv => conv (some v)
  | none => some v

/-- `buildFields(source, schema)` of both files: walk the schema in
declaration order; skip a field when the source value is absent/`null`
(`value == null`), when the converted value is `null`, or when it is NaN;
otherwise record `{ value, type }` under the field name. -/
def buildFields (source : String → Option JNum) : List FieldSpec → List TypedField
  | [] => []
  | config :: rest =>
    match source (jsOrDefault config.source config.name) with
    | none => buildFields source rest
    | some value =>
      match applyConvert config value with
      | some (JNum.num q) => ⟨config.name, q, config.type⟩ :: buildFields source rest
      | _ => buildFields source rest

/-- Unfolding lemma: `buildFields` on a cons schema reduces to a match on
the looked-up source value and the converted value. -/
theorem buildFields_cons_none (source : String → Option JNum)
    (config : FieldSpec) (rest : List FieldSpec)
    (hs : source (jsOrDefault config.source config.name) = none) :
    buildFields source (config :: rest) = buildFields source rest := by
  rw [buildFields, hs]

/-- Unfolding lemma: a present source value whose conversion is `null` is skipped. -/
theorem buildFields_cons_convNone (source : String → Option JNum)
    (config : FieldSpec) (rest : List FieldSpec) (v : JNum)
    (hs : source (jsOrDefault config.source config.name) = some v)
    (hc : applyConvert config v = none) :
    buildFields source (config :: rest) = buildFields source rest := by
  simp only [buildFields, hs, hc]

/-- Unfolding lemma: a present source value whose conversion is NaN is skipped. -/
theorem buildFields_cons_convNan (source : String → Option JNum)
    (config : FieldSpec) (rest : List FieldSpec) (v : JNum)
    (hs : source (jsOrDefault config.source config.name) = some v)
    (hc : applyConvert config v = some JNum.nan) :
    buildFields source (config :: rest) = buildFields source rest := by
  simp only [buildFields, hs, hc]

/-- Unfolding lemma: a present source value converting to a number is recorded. -/
theorem buildFields_cons_num (source : String → Option JNum)
    (config : FieldSpec) (rest : List FieldSpec) (v : JNum) (q : ℚ)
    (hs : source (jsOrDefault config.source config.name) = some v)
    (hc : applyConvert config v = some (JNum.num q)) :
    buildFields source (config :: rest) =
      ⟨config.name, q, config.type⟩ :: buildFields source rest := by
  simp only [buildFields, hs, hc]

/-- C1: a schema field appears in the extractor's result exactly when its
source value is present (not absent, not `null`) and the (optional)
conversion yields a non-null, non-NaN number; equivalently it is omitted
exactly when the source value is absent or null, the converter returns
null, or the resulting value is NaN.  `buildFields` is a total function of
the raw sub-report, so no individual missing or malformed field can raise;
and since the encoder receives exactly this list, an omitted field never
reaches the encoded output. -/
theorem buildFields_omission (source : String → Option JNum)
    (schema : List FieldSpec) (n : String) :
    (∃ tf ∈ buildFields source schema, tf.name = n) ↔
    (∃ config ∈ schema, config.name = n ∧
      ∃ v, source (jsOrDefault config.source config.name) = some v ∧
        ∃ q, applyConvert config v = some (JNum.num q)) := by
  induction schema with
  | nil => simp [buildFields]
  | cons config rest ih =>
    rcases hs : source (jsOrDefault config.source config.name) with _ | v
    · rw [buildFields_cons_none source config rest hs, ih]
      constructor
      · rintro ⟨c, hc, hrest⟩
        exact ⟨c, List.mem_cons_of_mem _ hc, hrest⟩
      · rintro ⟨c, hcmem, hcn, w, hw, r, hr⟩
        rcases List.mem_cons.mp hcmem with rfl | h2
        · rw [hs] at hw
          exact Option.noConfusion hw
        · exact ⟨c, h2, hcn, w, hw, r, hr⟩
    · rcases hc : applyConvert config v with _ | j
      · rw [buildFields_cons_convNone source config rest v hs hc, ih]
        constructor
        · rintro ⟨c, hcm, hrest⟩
          exact ⟨c, List.mem_cons_of_mem _ hcm, hrest⟩
        · rintro ⟨c, hcmem, hcn, w, hw, r, hr⟩
          rcases List.mem_cons.mp hcmem with rfl | h2
          · rw [hs] at hw
            injection hw with hw
            subst hw
            rw [hc] at hr
            exact Option.noConfusion hr
          · exact ⟨c, h2, hcn, w, hw, r, hr⟩
      · cases j with
        | nan =>
          rw [buildFields_cons_convNan source config rest v hs hc, ih]
          constructor
          · rintro ⟨c, hcm, hrest⟩
            exact ⟨c, List.mem_cons_of_mem _ hcm, hrest⟩
          · rintro ⟨c, hcmem, hcn, w, hw, r, hr⟩
            rcases List.mem_cons.mp hcmem with rfl | h2
            · rw [hs] at hw
              injection hw with hw
              subst hw
              rw [hc] at hr
              injection hr with hr
              exact JNum.noConfusion hr
            · exact ⟨c, h2, hcn, w, hw, r, hr⟩
        | num q =>
          rw [buildFields_cons_num source config rest v q hs hc]
          constructor
          · rintro ⟨tf, htf, hname⟩
            rcases List.mem_cons.mp htf with rfl | h2
            · exact ⟨config, List.mem_cons_self _ _, hname, v, hs, q, hc⟩
            · obtain ⟨c, hcm, hrest⟩ := ih.mp ⟨tf, h2, hname⟩
              exact ⟨c, List.mem_cons_of_mem _ hcm, hrest⟩
          · rintro ⟨c, hcmem, hcn, w, hw, r, hr⟩
            rcases List.mem_cons.mp hcmem with rfl | h2
            · exact ⟨⟨c.name, q, c.type⟩, List.mem_cons_self _ _, hcn⟩
            · obtain ⟨tf, htf, hname⟩ := ih.mpr ⟨c, h2, hcn, w, hw, r, hr⟩
              exact ⟨tf, List.mem_cons_of_mem _ htf, hname⟩

/-- Replace every occurrence of the character `c` by the replacement list
`r`, left to right (model of a global single-character regex replace). -/
def replaceChar (c : Char) (r : List Char) : List Char → List Char
  | [] => []
  | x :: xs => if x = c then r ++ replaceChar c r xs else x :: replaceChar c r xs

/-- `escapeTagValue` of both files: replace backslash first, then comma,
then equals, then space, each by its backslash-escaped form. -/
def escapeTagValue (v : String) : String :=
  String.mk (replaceChar ' ' ['\\', ' ']
    (replaceChar '=' ['\\', '=']
      (replaceChar ',' ['\\', ',']
        (replaceChar '\\' ['\\', '\\'] v.data))))

/-- Strict comparison of characters by code point, the order under which
`localeCompare` in the host default locale compares the plain
lowercase-ASCII tag keys this program passes to `Array.prototype.sort`. -/
def charLt (a b : Char) : Bool := a.toNat < b.toNat

/-- Lexicographic strict comparison of character lists under `charLt`;
byte-wise lexicographic order on the ASCII strings used as tag keys. -/
def charListLt : List Char → List Char → Bool
  | [], [] => false
  | [], _ :: _ => true
  | _ :: _, [] => false
  | a :: as, b :: bs =>
    if charLt a b then true else if charLt b a then false else charListLt as bs

/-- Non-strict key comparison used to model the comparator
`([a], [b]) => a.localeCompare(b)` of the tag sort: `a` sorts no later
than `b` iff `b` is not strictly smaller. -/
def keyLe (a b : String) : Bool := !charListLt b.data a.data

/-- Insertion step of an insertion sort with comparator `keyLe`, the model
of `Array.prototype.sort` on the tag entries. -/
def insertTag (t : String × String) : List (String × String) → List (String × String)
  | [] => [t]
  | u :: us => if keyLe t.1 u.1 then t :: u :: us else u :: insertTag t us

/-- Sort the tag entries by key with `insertTag` (model of
`.sort(([a], [b]) => a.localeCompare(b))`). -/
def sortTags : List (String × String) → List (String × String)
  | [] => []
  | t :: ts => insertTag t (sortTags ts)

/-- The `.filter(([, v]) => v != null)` step: drop tags whose value is
null/absent, keeping the string value of the rest. -/
def dropNullTags (tags : List (String × Option String)) : List (String × String) :=
  tags.filterMap (fun t =>
    match t.2 with
    | some v => some (t.1, v)
    | none => none)

/-- The tag string of `toLineProtocol`: filter out null values, sort by
key, render each entry as `key=escapedValue`, and join with commas. -/
def tagString (tags : List (String × Option String)) : String :=
  String.intercalate "," ((sortTags (dropNullTags tags)).map
    (fun p => p.1 ++ "=" ++ escapeTagValue p.2))

/-- Number of times `p` divides `n` (fuel-bounded so the recursion is
structural; called with fuel `n`). -/
def padicCount (p : ℕ) : ℕ → ℕ → ℕ
  | 0, _ => 0
  | fuel + 1, n => if n % p = 0 ∧ n ≠ 0 ∧ 1 < p then 1 + padicCount p fuel (n / p) else 0

/-- Decimal rendering of the integer `n` scaled down by `10^k` (`k > 0`):
sign, integer digits, decimal point, `k` fractional digits. -/
def renderScaled (n : ℤ) (k : ℕ) : String :=
  let sign := if n < 0 then "-" else ""
  let ds := Nat.repr n.natAbs
  let ds := if ds.length ≤ k then String.mk (List.replicate (k + 1 - ds.length) '0') ++ ds else ds
  sign ++ String.mk (ds.data.take (ds.length - k)) ++ "." ++ String.mk (ds.data.drop (ds.length - k))

/-- Rendering of `q` with `k` decimal places: the integer `q * 10^k`
printed plainly when `k = 0`, else through `renderScaled`. -/
def jsNumToStringK (q : ℚ) (k : ℕ) : String :=
  if k = 0 then toString (Rat.floor (q * 10 ^ k))
  else renderScaled (Rat.floor (q * 10 ^ k)) k

/-- Model of JavaScript number-to-string for the exact rationals of this
embedding: a rational with a terminating decimal expansion prints as its
shortest exact decimal (matching `String(x)` for the in-range finite
doubles this program produces), integers print without a decimal point. -/
def jsNumToStringQ (q : ℚ) : String :=
  jsNumToStringK q (max (padicCount 2 q.den q.den) (padicCount 5 q.den q.den))

/-- Bridge between the executable `Rat.floor` and the floor of the ordered
field structure. -/
theorem ratFloor_eq_floor (q : ℚ) : Rat.floor q = ⌊q⌋ := by
  rw [Rat.floor_def' q, Rat.floor_def]

/-- Evaluation scheme for `jsNumToStringQ` at a concrete rational, driven
by precomputed denominator, exponent and scaled numerator. -/
theorem jsNumToStringQ_eval (q : ℚ) (d k : ℕ) (n : ℤ)
    (hden : q.den = d) (hk : max (padicCount 2 d d) (padicCount 5 d d) = k)
    (hfl : Rat.floor (q * 10 ^ k) = n) :
    jsNumToStringQ q = if k = 0 then toString n else renderScaled n k := by
  rw [jsNumToStringQ, hden, hk, jsNumToStringK, hfl]

/-- One entry of the field string: `name=<floor(value)>i` for `'int'`
fields (`Math.floor`), `name=<value>` for `'float'` fields. -/
def fieldEntry (f : TypedField) : String :=
  match f.type with
  | NumericKind.int => f.name ++ "=" ++ toString (Rat.floor f.value) ++ "i"
  | NumericKind.float => f.name ++ "=" ++ jsNumToStringQ f.value

/-- The field string of `toLineProtocol`: entries in field order joined
with commas. -/
def fieldString (fields : List TypedField) : String :=
  String.intercalate "," (fields.map fieldEntry)

/-- `toLineProtocol(measurement, tags, fields, ts)` of both files: return
`null` when the field string is empty, else
`measurement,tagStr fieldStr ts` (the comma is always emitted). -/
def toLineProtocol (measurement : String) (tags : List (String × Option String))
    (fields : List TypedField) (ts : ℚ) : Option String :=
  if fieldString fields = "" then none
  else some (measurement ++ "," ++ tagString tags ++ " " ++
    fieldString fields ++ " " ++ jsNumToStringQ ts)

/-- Unfolding characterization of the lexicographic comparison on cons cells. -/
theorem charListLt_cons_iff (a b : Char) (as bs : List Char) :
    charListLt (a :: as) (b :: bs) = true ↔
    (a.toNat < b.toNat ∨ (a.toNat = b.toNat ∧ charListLt as bs = true)) := by
  simp only [charListLt, charLt]
  by_cases h1 : a.toNat < b.toNat
  · simp [h1]
  · by_cases h2 : b.toNat < a.toNat
    · simp [h1, h2]
      omega
    · have h3 : a.toNat = b.toNat := by omega
      simp [h1, h2, h3]

/-- The strict lexicographic comparison is asymmetric. -/
theorem charListLt_asymm : ∀ as bs : List Char,
    charListLt as bs = true → charListLt bs as = false := by
  intro as
  induction as with
  | nil =>
    intro bs h
    cases bs with
    | nil => exact Bool.noConfusion h
    | cons b bs => rfl
  | cons a as ih =>
    intro bs h
    cases bs with
    | nil => exact Bool.noConfusion h
    | cons b bs =>
      rw [charListLt_cons_iff] at h
      apply Bool.eq_false_iff.mpr
      intro hcontra
      rw [charListLt_cons_iff] at hcontra
      rcases h with h | ⟨heq, hrec⟩ <;> rcases hcontra with hc | ⟨hceq, hcrec⟩
      · omega
      · omega
      · omega
      · exact absurd hcrec (by simp [ih bs hrec])

/-- Order-connectedness of the strict lexicographic comparison: whenever
`as < cs`, any list `bs` is strictly above `as` or strictly below `cs`. -/
theorem charListLt_conn : ∀ as bs cs : List Char,
    charListLt as cs = true →
    charListLt as bs = true ∨ charListLt bs cs = true := by
  intro as
  induction as with
  | nil =>
    intro bs cs h
    cases bs with
    | nil => exact Or.inr h
    | cons b bs => exact Or.inl rfl
  | cons a as ih =>
    intro bs cs h
    cases cs with
    | nil => exact Bool.noConfusion h
    | cons c cs =>
      cases bs with
      | nil => exact Or.inr rfl
      | cons b bs =>
        rw [charListLt_cons_iff] at h
        rw [charListLt_cons_iff, charListLt_cons_iff]
        rcases h with h | ⟨heq, hrec⟩
        · rcases Nat.lt_or_ge a.toNat b.toNat with h1 | h1
          · exact Or.inl (Or.inl h1)
          · exact Or.inr (Or.inl (by omega))
        · by_cases h1 : a.toNat < b.toNat
          · exact Or.inl (Or.inl h1)
          · by_cases h2 : b.toNat < c.toNat
            · exact Or.inr (Or.inl h2)
            · have hab : a.toNat = b.toNat := by omega
              have hbc : b.toNat = c.toNat := by omega
              rcases ih bs cs hrec with h3 | h3
              · exact Or.inl (Or.inr ⟨hab, h3⟩)
              · exact Or.inr (Or.inr ⟨hbc, h3⟩)

/-- Totality of the key comparator. -/
theorem keyLe_total (a b : String) : keyLe a b = true ∨ keyLe b a = true := by
  simp only [keyLe, Bool.not_eq_true']
  rcases h1 : charListLt b.data a.data with _ | _
  · exact Or.inl rfl
  · exact Or.inr (charListLt_asymm b.data a.data h1)

/-- Transitivity of the key comparator. -/
theorem keyLe_trans (a b c : String) (h1 : keyLe a b = true) (h2 : keyLe b c = true) :
    keyLe a c = true := by
  simp only [keyLe, Bool.not_eq_true'] at h1 h2 ⊢
  rcases h3 : charListLt c.data a.data with _ | _
  · rfl
  · rcases charListLt_conn c.data b.data a.data h3 with h4 | h4
    · rw [h2] at h4
      exact Bool.noConfusion h4
    · rw [h1] at h4
      exact Bool.noConfusion h4

/-- Membership in an insertion step. -/
theorem mem_insertTag (x t : String × String) :
    ∀ l : List (String × String), x ∈ insertTag t l ↔ x = t ∨ x ∈ l := by
  intro l
  induction l with
  | nil => simp [insertTag]
  | cons u us ih =>
    rw [insertTag]
    by_cases h : keyLe t.1 u.1 = true
    · simp only [if_pos h, List.mem_cons]
    · simp only [if_neg h, List.mem_cons, ih]
      tauto

/-- Membership is preserved by the tag sort. -/
theorem mem_sortTags (x : String × String) :
    ∀ l : List (String × String), x ∈ sortTags l ↔ x ∈ l := by
  intro l
  induction l with
  | nil => simp [sortTags]
  | cons t ts ih =>
    rw [sortTags, mem_insertTag]
    simp only [List.mem_cons, ih]

/-- Inserting into a key-sorted list keeps it key-sorted. -/
theorem pairwise_insertTag (t : String × String) :
    ∀ l : List (String × String),
    l.Pairwise (fun p r => keyLe p.1 r.1 = true) →
    (insertTag t l).Pairwise (fun p r => keyLe p.1 r.1 = true) := by
  intro l
  induction l with
  | nil =>
    intro _
    exact List.pairwise_singleton _ t
  | cons u us ih =>
    intro hp
    rcases List.pairwise_cons.mp hp with ⟨hu, hus⟩
    rw [insertTag]
    by_cases h : keyLe t.1 u.1 = true
    · rw [if_pos h]
      refine List.pairwise_cons.mpr ⟨?_, hp⟩
      intro x hx
      rcases List.mem_cons.mp hx with rfl | hx2
      · exact h
      · exact keyLe_trans t.1 u.1 x.1 h (hu x hx2)
    · rw [if_neg h]
      refine List.pairwise_cons.mpr ⟨?_, ih hus⟩
      intro x hx
      rcases (mem_insertTag x t us).mp hx with rfl | hx2
      · rcases keyLe_total x.1 u.1 with h1 | h1
        · exact absurd h1 h
        · exact h1
      · exact hu x hx2

/-- The tag sort produces a key-sorted list. -/
theorem pairwise_sortTags :
    ∀ l : List (String × String),
    (sortTags l).Pairwise (fun p r => keyLe p.1 r.1 = true) := by
  intro l
  induction l with
  | nil => exact List.Pairwise.nil
  | cons t ts ih => exact pairwise_insertTag t (sortTags ts) ih

/-- Membership in the null-filtering step. -/
theorem mem_dropNullTags (p : String × String) (tags : List (String × Option String)) :
    p ∈ dropNullTags tags ↔ (p.1, some p.2) ∈ tags := by
  rw [dropNullTags, List.mem_filterMap]
  constructor
  · rintro ⟨⟨k, vo⟩, hmem, hf⟩
    cases vo with
    | none => exact Option.noConfusion hf
    | some v =>
      simp only [Option.some.injEq] at hf
      subst hf
      exact hmem
  · intro hmem
    exact ⟨(p.1, some p.2), hmem, rfl⟩

/-- C2: tag encoding of the line protocol encoder.  Null-valued tags are
dropped and the rest appear exactly once per original entry, sorted by key
under the (total, transitive) code-point lexicographic comparator; each
entry renders as `key=escapedValue` with the value escaped in the order
backslash, comma, equals, space, and keys are not escaped.  On the three
static outdoor tags this yields the spec's example string, and the escape
order is exhibited on a value containing every special character. -/
theorem tag_encoding :
    (tagString [("source", some "davis"), ("location", some "outside"),
      ("friendly_name", some "Davis Outdoor ISS")] =
      "friendly_name=Davis\\ Outdoor\\ ISS,location=outside,source=davis") ∧
    (escapeTagValue "a\\b,c=d e" = "a\\\\b\\,c\\=d\\ e") ∧
    (∀ tags : List (String × Option String),
      (sortTags (dropNullTags tags)).Pairwise (fun p r => keyLe p.1 r.1 = true)) ∧
    (∀ (tags : List (String × Option String)) (p : String × String),
      p ∈ sortTags (dropNullTags tags) ↔ (p.1, some p.2) ∈ tags) ∧
    (∀ tags : List (String × Option String),
      tagString tags = String.intercalate ","
        ((sortTags (dropNullTags tags)).map (fun p => p.1 ++ "=" ++ escapeTagValue p.2))) := by
  refine ⟨by decide, by decide, ?_, ?_, ?_⟩
  · intro tags
    exact pairwise_sortTags (dropNullTags tags)
  · intro tags p
    rw [mem_sortTags, mem_dropNullTags]
  · intro tags
    rfl

/-- One entry of `data.conditions`: its `data_structure_type` and `txid`
discriminators (absent keys modelled as `none`) and the remaining raw
key→value fields. -/
structure Condition where
  data_structure_type : Option ℚ
  txid : Option ℚ
  fields : String → Option JNum

/-- The `data` object of the input payload: `ts`, `did`, `conditions`. -/
structure RawData where
  ts : Option JNum
  did : Option String
  conditions : Option (List Condition)

/-- Outcome of one conversion call: an output string set on `msg.payload`,
or `return null` after `node.warn("Invalid payload structure")` /
`node.warn("Invalid AirLink JSON structure - skipped")`
(`invalidStructure`), or `return null` after `node.warn("No valid data
points")` / `node.warn("No valid data to write")` (`noValidData`). -/
inductive ConvResult where
  | ok : String → ConvResult
  | invalidStructure : ConvResult
  | noValidData : ConvResult
deriving DecidableEq

/-- JavaScript truthiness of the `ts` value: present and neither `0` nor
NaN (used by the guard `!payload?.data?.ts`). -/
def jsTruthyTs : Option JNum → Bool
  | some (JNum.num q) => decide (q ≠ 0)
  | _ => false

/-- `CONFIG.outdoor.tags` of `part_000`, in object insertion order. -/
def outdoorBaseTags : List (String × Option String) :=
  [("source", some "davis"), ("location", some "outside"),
   ("friendly_name", some "Davis Outdoor ISS")]

/-- The outdoor tag set `{ ...CONFIG.outdoor.tags, sensor_id: data.did || 'unknown' }`. -/
def outdoorTags (did : Option String) : List (String × Option String) :=
  outdoorBaseTags ++ [("sensor_id", some (jsOrDefault did "unknown"))]

/-- `CONFIG.indoor.tags` of `part_000`. -/
def indoorTags : List (String × Option String) :=
  [("source", some "davis"), ("location", some "indoor"),
   ("friendly_name", some "Davis Indoor Console")]

/-- `CONFIG.barometer.tags` of `part_000`. -/
def barometerTags : List (String × Option String) :=
  [("source", some "davis"), ("location", some "indoor"),
   ("friendly_name", some "Davis Barometer")]

/-- The AirLink tag set `{ ...CONFIG.tags, sensor_id: data.did || 'unknown' }`. -/
def airlinkTags (did : Option String) : List (String × Option String) :=
  [("source", some "davis_airlink"), ("location", some "outside"),
   ("friendly_name", some "Davis AirLink"),
   ("sensor_id", some (jsOrDefault did "unknown"))]

/-- One category of the dispatch in `part_000`: if the sub-report was
found, extract its fields, encode, and keep the line if non-null
(`if (line) lines.push(line)`); otherwise contribute nothing. -/
def catLines (copt : Option Condition) (measurement : String)
    (tags : List (String × Option String)) (schema : List FieldSpec) (ts : ℚ) : List String :=
  match copt with
  | none => []
  | some c => (toLineProtocol measurement tags (buildFields c.fields schema) ts).toList

/-- The collected lines of `part_000`: outdoor
(`data_structure_type === 1 && txid === 1`), then indoor (`=== 4`), then
barometer (`=== 3`). -/
def wllLines (conds : List Condition) (did : Option String) (ts : ℚ) : List String :=
  catLines (conds.find? (fun c =>
      decide (c.data_structure_type = some 1 ∧ c.txid = some 1)))
    "outdoor_conditions" (outdoorTags did) OUTDOOR_SCHEMA ts ++
  catLines (conds.find? (fun c => decide (c.data_structure_type = some 4)))
    "indoor_conditions" indoorTags INDOOR_SCHEMA ts ++
  catLines (conds.find? (fun c => decide (c.data_structure_type = some 3)))
    "barometer" barometerTags BAROMETER_SCHEMA ts

/-- Top level of `part_000` on a parsed payload: reject when
`!payload?.data?.ts || !payload?.data?.conditions`; otherwise collect the
category lines at the nanosecond timestamp `data.ts * 1000000000`, warn
`"No valid data points"` when none survived, else join them with
newlines. -/
def wllConvert (input : Option RawData) : ConvResult :=
  match input with
  | none => ConvResult.invalidStructure
  | some d =>
    match d.ts, d.conditions with
    | some (JNum.num tsq), some conds =>
      if tsq = 0 then ConvResult.invalidStructure
      else
        let lines := wllLines conds d.did (tsq * 1000000000)
        if lines.isEmpty then ConvResult.noValidData
        else ConvResult.ok (String.intercalate "\n" lines)
    | _, _ => ConvResult.invalidStructure

/-- Top level of `airlink.js` on a parsed payload: reject when
`!payload?.data?.ts || !payload?.data?.conditions?.[0]` or when
`conditions[0].data_structure_type !== 6`; otherwise extract the fields of
`conditions[0]`, warn `"No valid data to write"` when none survived, else
encode the single line. -/
def airlinkConvert (input : Option RawData) : ConvResult :=
  match input with
  | none => ConvResult.invalidStructure
  | some d =>
    match d.ts, d.conditions with
    | some (JNum.num tsq), some (air :: _) =>
      if tsq = 0 then ConvResult.invalidStructure
      else if air.data_structure_type ≠ some 6 then ConvResult.invalidStructure
      else
        let fields := buildFields air.fields FIELD_SCHEMA
        if fields.isEmpty then ConvResult.noValidData
        else ConvResult.ok
          ((toLineProtocol "air_quality" (airlinkTags d.did) fields (tsq * 1000000000)).getD "")
    | _, _ => ConvResult.invalidStructure

/-- C3 counterexample: the integer encoder uses `Math.floor`, which rounds
toward negative infinity, not toward zero.  At the int-typed value `-1/2`
truncation toward zero gives `0` (for a negative rational that is its
ceiling, here `⌈-1/2⌉ = 0`), so the claim predicts `x=0i`, but the code
emits `x=-1i`. -/
theorem int_fields_not_truncated_toward_zero :
    fieldEntry ⟨"x", -(1:ℚ)/2, NumericKind.int⟩ = "x=-1i" ∧
    ⌈-(1:ℚ)/2⌉ = 0 ∧
    ("x=-1i" : String) ≠ "x=0i" := by
  refine ⟨?_, ?_, by decide⟩
  · have h : Rat.floor (-(1:ℚ)/2) = -1 := by norm_num [Rat.floor_def']
    simp only [fieldEntry, h]
    decide
  · rw [Int.ceil_eq_iff]
    constructor <;> norm_num

/-- C3 as amended: integer-typed fields encode as `name=` followed by the
value rounded with `Math.floor` (toward negative infinity, which agrees
with truncation toward zero for the non-negative values of this domain)
plus the literal suffix `i`; float-typed fields encode as `name=` followed
by the decimal rendering of the already-rounded value, with no suffix and
no further rounding.  In particular int `180` and int `180.9` both encode
as `180i` (never rounded up) and float `4.47` encodes as `4.47`. -/
theorem field_value_encoding :
    (∀ f : TypedField, f.type = NumericKind.int →
      fieldEntry f = f.name ++ "=" ++ toString (Rat.floor f.value) ++ "i") ∧
    (∀ f : TypedField, f.type = NumericKind.float →
      fieldEntry f = f.name ++ "=" ++ jsNumToStringQ f.value) ∧
    fieldEntry ⟨"wind_dir_last", 180, NumericKind.int⟩ = "wind_dir_last=180i" ∧
    fieldEntry ⟨"wind_dir_last", (1809:ℚ)/10, NumericKind.int⟩ = "wind_dir_last=180i" ∧
    fieldEntry ⟨"temp", (447:ℚ)/100, NumericKind.float⟩ = "temp=4.47" := by
  refine ⟨?_, ?_, ?_, ?_, ?_⟩
  · rintro ⟨n, v, t⟩ ht
    simp only at ht
    subst ht
    rfl
  · rintro ⟨n, v, t⟩ ht
    simp only at ht
    subst ht
    rfl
  · have h : Rat.floor (180:ℚ) = 180 := by norm_num [Rat.floor_def']
    simp only [fieldEntry, h]
    decide
  · have h : Rat.floor ((1809:ℚ)/10) = 180 := by norm_num [Rat.floor_def']
    simp only [fieldEntry, h]
    decide
  · have h : jsNumToStringQ ((447:ℚ)/100) = "4.47" := by
      rw [jsNumToStringQ_eval ((447:ℚ)/100) 100 2 447 (by norm_num) (by decide)
        (by norm_num [Rat.floor_def'])]
      decide
    simp only [fieldEntry, h]
    decide

/-- Witness for the hypotheses of `field_value_encoding`, applied at the
concrete int field `x = 5/2` and the concrete float field `y = 7`. -/
theorem field_value_encoding_witness :
    fieldEntry ⟨"x", (5:ℚ)/2, NumericKind.int⟩ =
      "x" ++ "=" ++ toString (Rat.floor ((5:ℚ)/2)) ++ "i" ∧
    fieldEntry ⟨"y", 7, NumericKind.float⟩ = "y" ++ "=" ++ jsNumToStringQ 7 :=
  ⟨field_value_encoding.1 ⟨"x", (5:ℚ)/2, NumericKind.int⟩ rfl,
   field_value_encoding.2.1 ⟨"y", 7, NumericKind.float⟩ rfl⟩

/-- C4: a record with zero fields is never emitted.  The encoder returns
`null` on an empty field mapping; any emitted line comes from a non-empty
field mapping; and a located sub-report whose schema extraction is empty
contributes no line to the collected output (so it is absent from the
joined result). -/
theorem empty_fields_suppressed :
    (∀ (m : String) (tags : List (String × Option String)) (ts : ℚ),
      toLineProtocol m tags [] ts = none) ∧
    (∀ (m : String) (tags : List (String × Option String))
      (fields : List TypedField) (ts : ℚ) (s : String),
      toLineProtocol m tags fields ts = some s → fields ≠ []) ∧
    (∀ (copt : Option Condition) (m : String) (tags : List (String × Option String))
      (schema : List FieldSpec) (ts : ℚ),
      (∀ c, copt = some c → buildFields c.fields schema = []) →
      catLines copt m tags schema ts = []) := by
  have he : fieldString [] = "" := rfl
  refine ⟨?_, ?_, ?_⟩
  · intro m tags ts
    rw [toLineProtocol, if_pos he]
  · intro m tags fields ts s hsome hnil
    subst hnil
    rw [toLineProtocol, if_pos he] at hsome
    exact Option.noConfusion hsome
  · intro copt m tags schema ts h
    cases copt with
    | none => rfl
    | some c =>
      rw [catLines, h c rfl, toLineProtocol, if_pos he]
      rfl

/-- Witness for `empty_fields_suppressed` at concrete inputs: an emitted
line forces a non-empty field list, and a located sub-report whose raw
record has no keys extracts no fields against the outdoor schema so its
category contributes no line. -/
theorem empty_fields_suppressed_witness :
    ([⟨"a", 1, NumericKind.float⟩] : List TypedField) ≠ [] ∧
    catLines (some ⟨some 1, some 1, fun _ => none⟩) "outdoor_conditions"
      (outdoorTags none) OUTDOOR_SCHEMA 0 = [] := by
  constructor
  · have h1 : jsNumToStringQ (1:ℚ) = "1" := by
      rw [jsNumToStringQ_eval 1 1 0 1 (by norm_num) (by decide) (by norm_num [Rat.floor_def'])]
      decide
    have h0 : jsNumToStringQ (0:ℚ) = "0" := by
      rw [jsNumToStringQ_eval 0 1 0 0 (by norm_num) (by decide) (by norm_num [Rat.floor_def'])]
      decide
    have hf : fieldString [⟨"a", 1, NumericKind.float⟩] = "a=1" := by
      simp only [fieldString, List.map, fieldEntry, h1]
      decide
    refine empty_fields_suppressed.2.1 "m" [] [⟨"a", 1, NumericKind.float⟩] 0 "m, a=1 0" ?_
    rw [toLineProtocol, hf, h0]
    rw [if_neg (by decide)]
    rfl
  · exact empty_fields_suppressed.2.2 (some ⟨some 1, some 1, fun _ => none⟩)
      "outdoor_conditions" (outdoorTags none) OUTDOOR_SCHEMA 0
      (fun c hc => by cases hc; rfl)

/-- C5 counterexample: the final assembly always emits the comma after the
measurement name, even when the tag string is empty.  With no tags at all
the tag string is empty, yet the encoded record is `m, a=1 0` (comma
present, then a space), not the claimed `m a=1 0`. -/
theorem empty_tagstring_comma_not_omitted :
    tagString [] = "" ∧
    toLineProtocol "m" [] [⟨"a", 1, NumericKind.float⟩] 0 = some "m, a=1 0" ∧
    ("m, a=1 0" : String) ≠ "m a=1 0" := by
  refine ⟨rfl, ?_, by decide⟩
  have h1 : jsNumToStringQ (1:ℚ) = "1" := by
    rw [jsNumToStringQ_eval 1 1 0 1 (by norm_num) (by decide) (by norm_num [Rat.floor_def'])]
    decide
  have h0 : jsNumToStringQ (0:ℚ) = "0" := by
    rw [jsNumToStringQ_eval 0 1 0 0 (by norm_num) (by decide) (by norm_num [Rat.floor_def'])]
    decide
  have hf : fieldString [⟨"a", 1, NumericKind.float⟩] = "a=1" := by
    simp only [fieldString, List.map, fieldEntry, h1]
    decide
  rw [toLineProtocol, hf, h0]
  rw [if_neg (by decide)]
  rfl

/-- C5 as amended: the encoder's assembly is always
`measurement + "," + tagString + " " + fieldString + " " + timestamp`; the
comma is emitted even when the tag string is empty.  (In this program the
static tag sets are never empty, so the empty-tag artifact cannot occur in
produced lines.) -/
theorem line_assembly :
    ∀ (m : String) (tags : List (String × Option String))
      (fields : List TypedField) (ts : ℚ) (s : String),
      toLineProtocol m tags fields ts = some s →
      s = m ++ "," ++ tagString tags ++ " " ++ fieldString fields ++ " " ++ jsNumToStringQ ts := by
  intro m tags fields ts s h
  rw [toLineProtocol] at h
  by_cases he : fieldString fields = ""
  · rw [if_pos he] at h
    exact Option.noConfusion h
  · rw [if_neg he] at h
    exact ((Option.some.injEq _ _).mp h).symm

/-- Witness for `line_assembly` at a concrete encoded record. -/
theorem line_assembly_witness :
    ("m, a=1 0" : String) =
      "m" ++ "," ++ tagString [] ++ " " ++
        fieldString [⟨"a", 1, NumericKind.float⟩] ++ " " ++ jsNumToStringQ 0 := by
  have h1 : jsNumToStringQ (1:ℚ) = "1" := by
    rw [jsNumToStringQ_eval 1 1 0 1 (by norm_num) (by decide) (by norm_num [Rat.floor_def'])]
    decide
  have h0 : jsNumToStringQ (0:ℚ) = "0" := by
    rw [jsNumToStringQ_eval 0 1 0 0 (by norm_num) (by decide) (by norm_num [Rat.floor_def'])]
    decide
  have hf : fieldString [⟨"a", 1, NumericKind.float⟩] = "a=1" := by
    simp only [fieldString, List.map, fieldEntry, h1]
    decide
  have h : toLineProtocol "m" [] [⟨"a", 1, NumericKind.float⟩] 0 = some "m, a=1 0" := by
    rw [toLineProtocol, hf, h0]
    rw [if_neg (by decide)]
    rfl
  exact line_assembly "m" [] [⟨"a", 1, NumericKind.float⟩] 0 "m, a=1 0" h

/-- The rejection predicate of `part_000` spelled out on the embedded
input: payload/data absent, `ts` absent or falsy (`0` or NaN — JavaScript
`!ts`), or `conditions` absent. -/
def wllInvalid (input : Option RawData) : Bool :=
  match input with
  | none => true
  | some d => !(jsTruthyTs d.ts) || d.conditions.isNone

/-- The rejection predicate of `airlink.js` spelled out on the embedded
input: payload/data absent, `ts` absent or falsy, `conditions` absent or
empty (`!conditions?.[0]`), or the first condition's
`data_structure_type !== 6`. -/
def airlinkInvalid (input : Option RawData) : Bool :=
  match input with
  | none => true
  | some d =>
    !(jsTruthyTs d.ts) ||
    (match d.conditions with
     | some (air :: _) => decide (air.data_structure_type ≠ some 6)
     | _ => true)

/-- C8 counterexample: the structural guard uses JavaScript truthiness,
not key presence.  An input whose `ts` key is present with value `0` and
whose `conditions` key is present (an empty array is truthy) is rejected
as structurally invalid, although the claim says processing proceeds
whenever both keys are present. -/
theorem ts_zero_rejected :
    wllConvert (some ⟨some (JNum.num 0), some "001D0A100000", some []⟩) =
      ConvResult.invalidStructure ∧
    (some (JNum.num 0)).isSome = true ∧
    (some ([] : List Condition)).isSome = true := by
  refine ⟨?_, rfl, rfl⟩
  simp [wllConvert]

/-- C8 as amended: the conversion reports the structural-invalid warning
and yields no output exactly when the payload or its `data` is absent,
`ts` is absent or falsy (`0` or NaN), or `conditions` is absent — and, for
the air-quality variant, additionally when `conditions` is empty or the
first condition's `data_structure_type` differs from `6`.  Otherwise
processing proceeds (the result is never the structural warning). -/
theorem structural_validation :
    (∀ input : Option RawData,
      wllConvert input = ConvResult.invalidStructure ↔ wllInvalid input = true) ∧
    (∀ input : Option RawData,
      airlinkConvert input = ConvResult.invalidStructure ↔ airlinkInvalid input = true) := by
  constructor
  · intro input
    cases input with
    | none => simp [wllConvert, wllInvalid]
    | some d =>
      rcases d with ⟨ts, did, conds⟩
      rcases ts with _ | j
      · simp [wllConvert, wllInvalid, jsTruthyTs]
      · cases j with
        | nan => simp [wllConvert, wllInvalid, jsTruthyTs]
        | num q =>
          rcases conds with _ | cs
          · simp [wllConvert, wllInvalid, jsTruthyTs]
          · by_cases hq : q = 0
            · simp [wllConvert, wllInvalid, jsTruthyTs, hq]
            · rcases hl : (wllLines cs did (q * 1000000000)).isEmpty with _ | _ <;>
                simp [wllConvert, wllInvalid, jsTruthyTs, hq, hl]
  · intro input
    cases input with
    | none => simp [airlinkConvert, airlinkInvalid]
    | some d =>
      rcases d with ⟨ts, did, conds⟩
      rcases ts with _ | j
      · simp [airlinkConvert, airlinkInvalid, jsTruthyTs]
      · cases j with
        | nan => simp [airlinkConvert, airlinkInvalid, jsTruthyTs]
        | num q =>
          rcases conds with _ | cs
          · simp [airlinkConvert, airlinkInvalid, jsTruthyTs]
          · cases cs with
            | nil => simp [airlinkConvert, airlinkInvalid, jsTruthyTs]
            | cons air rest =>
              by_cases hq : q = 0
              · simp [airlinkConvert, airlinkInvalid, jsTruthyTs, hq]
              · by_cases h6 : air.data_structure_type = some 6
                · rcases hl : (buildFields air.fields FIELD_SCHEMA).isEmpty with _ | _ <;>
                    simp [airlinkConvert, airlinkInvalid, jsTruthyTs, hq, h6, hl]
                · simp [airlinkConvert, airlinkInvalid, jsTruthyTs, hq, h6]

/-- C9: when the structural guard passes but the collected output is
empty, each converter returns the explicit no-valid-data warning result —
never an empty string treated as success.  For `part_000` this happens
exactly when no category contributed a line (in particular when
`conditions` has no entry matching the outdoor discriminator and none
matching the others); for `airlink.js`, exactly when the schema extraction
of the single air condition is empty. -/
theorem no_valid_data_signal :
    (∀ (tsq : ℚ) (did : Option String) (conds : List Condition), tsq ≠ 0 →
      (wllConvert (some ⟨some (JNum.num tsq), did, some conds⟩) = ConvResult.noValidData ↔
        wllLines conds did (tsq * 1000000000) = [])) ∧
    (∀ (tsq : ℚ) (did : Option String) (air : Condition) (rest : List Condition),
      tsq ≠ 0 → air.data_structure_type = some 6 →
      (airlinkConvert (some ⟨some (JNum.num tsq), did, some (air :: rest)⟩) =
          ConvResult.noValidData ↔
        buildFields air.fields FIELD_SCHEMA = [])) := by
  constructor
  · intro tsq did conds h
    simp only [wllConvert]
    rw [if_neg h]
    cases hl : wllLines conds did (tsq * 1000000000) with
    | nil => simp
    | cons a as => simp
  · intro tsq did air rest h h6
    simp only [airlinkConvert]
    rw [if_neg h, if_neg (by simp [h6])]
    cases hl : buildFields air.fields FIELD_SCHEMA with
    | nil => simp [hl]
    | cons f fs => simp [hl]

/-- Witness for `no_valid_data_signal`: a WeatherLink payload whose single
condition matches no discriminator yields the no-valid-data result, and an
AirLink payload whose matching condition has no recognized keys does too. -/
theorem no_valid_data_signal_witness :
    wllConvert (some ⟨some (JNum.num 1700000000), some "001D0A100000",
      some [⟨none, none, fun _ => none⟩]⟩) = ConvResult.noValidData ∧
    airlinkConvert (some ⟨some (JNum.num 1700000000), none,
      some [⟨some 6, none, fun _ => none⟩]⟩) = ConvResult.noValidData :=
  ⟨(no_valid_data_signal.1 1700000000 (some "001D0A100000")
      [⟨none, none, fun _ => none⟩] (by norm_num)).mpr rfl,
   (no_valid_data_signal.2 1700000000 none ⟨some 6, none, fun _ => none⟩ []
      (by norm_num) rfl).mpr rfl⟩

/-- C10 counterexample: `sensor_id` is `data.did || 'unknown'`, and the
empty string is falsy in JavaScript, so a present-but-empty `did` yields
the sentinel `"unknown"`, not the device identifier itself as the claim
states. -/
theorem empty_did_sensor_id :
    outdoorTags (some "") =
      [("source", some "davis"), ("location", some "outside"),
       ("friendly_name", some "Davis Outdoor ISS"), ("sensor_id", some "unknown")] ∧
    ("unknown" : String) ≠ "" := by
  exact ⟨by decide, by decide⟩

/-- C10 as amended: the dynamic `sensor_id` tag equals `deviceId` whenever
the `did` key is present and non-empty (truthy), and equals the sentinel
`"unknown"` when `did` is absent or the empty string; both converters
place this entry in their tag sets. -/
theorem sensor_id_tag :
    (∀ s : String, s ≠ "" → jsOrDefault (some s) "unknown" = s) ∧
    jsOrDefault none "unknown" = "unknown" ∧
    jsOrDefault (some "") "unknown" = "unknown" ∧
    (∀ did, ("sensor_id", some (jsOrDefault did "unknown")) ∈ outdoorTags did) ∧
    (∀ did, ("sensor_id", some (jsOrDefault did "unknown")) ∈ airlinkTags did) := by
  refine ⟨?_, rfl, by decide, ?_, ?_⟩
  · intro s hs
    simp [jsOrDefault, hs]
  · intro did
    simp [outdoorTags, outdoorBaseTags]
  · intro did
    simp [airlinkTags]

/-- Witness for `sensor_id_tag` at a concrete non-empty device id. -/
theorem sensor_id_tag_witness :
    jsOrDefault (some "001D0A100000") "unknown" = "001D0A100000" :=
  sensor_id_tag.1 "001D0A100000" (by decide)
